import Mathlib

/-!
Verification of the IPRAYS pixel-canvas repository.

The on-ledger part is a shallow embedding of the `PlaceCanvas` contract
(`src/contracts/ProgrammableData.sol`): contract storage becomes an explicit
`CanvasState`, the two placement entry points become functions
`CanvasState → Ctx → … → Except Err (CanvasState × List Ev)`, and EVM revert
semantics are modelled by `applyCmd`, which keeps the pre-state whenever a
transaction returns an error (a reverted EVM transaction leaves no state
change).  Machine integers are `Nat` with `% 2 ^ 256` exactly where uint256
wrap-around can occur (the `<<` in `getPixelKey`).

The client part embeds the event-replay merge of
`src/frontend/src/hooks/useCanvasSync.ts` and the optimistic overlay of
`src/frontend/src/hooks/useRateLimitInfo.ts` (the `useOptimisticCanvas`
hook in that file).

Environment interaction is made explicit: `readBytes()` (the Irys
programmable-data precompile) and the success of the treasury `call` are
inputs of the call context `Ctx`; `block.timestamp`, `msg.sender` and
`msg.value` are `Ctx` fields as well.
-/

namespace PlaceCanvas

/-- `CANVAS_SIZE` constant of the contract (fixed 1024). -/
def CANVAS_SIZE : Nat := 1024

/-- 2 ^ 256, the modulus of uint256 arithmetic. -/
def W256 : Nat := 2 ^ 256

/-- `type(uint256).max`, used by `findSubstring` as its not-found sentinel. -/
def UINT256_MAX : Nat := 2 ^ 256 - 1

/-- The `PixelData` struct of the contract.  `color` is the numeric value of
the `bytes3` color, `placedBy` the numeric value of the address
(0 = zero address). -/
structure PixelData where
  color : Nat
  placedBy : Nat
  timestamp : Nat
  irysTxId : String
  isProgrammableData : Bool
deriving DecidableEq, Repr

/-- The all-zero `PixelData`, the Solidity mapping default. -/
def zeroPixel : PixelData := ⟨0, 0, 0, "", false⟩

/-- Contract storage of `PlaceCanvas`.  Solidity mappings become total
functions returning the mapping default for untouched keys. -/
structure CanvasState where
  pixelPrice : Nat
  maxProgrammableReadLength : Nat
  totalPixelsPlaced : Nat
  treasury : Nat
  autoWithdrawThreshold : Nat
  minPlacementInterval : Nat
  lastPlacementAt : Nat → Nat
  pixels : Nat → PixelData
  irysPixelDetails : String → List Nat
  irysPixelHash : String → List Nat
  processedIrysData : String → Bool
  paused : Bool
  balance : Nat
  version : Nat

/-- Revert reasons of the contract entry points embedded here. -/
inductive Err where
  | contractPaused
  | outOfBounds
  | insufficientPayment
  | rateLimited
  | alreadyProcessed
  | invalidIrysTxId
  | readBytesFailed
  | invalidPayloadSize
  | invalidColorFormat
  | invalidColorLength
  | invalidHexLength
  | invalidHexChar
deriving DecidableEq, Repr

/-- Events emitted by the placement entry points. -/
inductive Ev where
  | PixelPlaced (x y color user timestamp : Nat)
  | PixelDataRead (x y : Nat) (irysTxId : String) (timestamp : Nat)
  | ProgrammableDataProcessed (irysTxId : String) (data : List Nat) (timestamp : Nat)
  | AutoWithdraw (dest amount timestamp : Nat)
deriving DecidableEq, Repr

/-- Call context of one transaction: sender, attached value, block timestamp,
the bytes the `readBytes()` precompile returns for the transaction's access
list (`none` models a failing precompile call), and whether the low-level
treasury `call` succeeds. -/
structure Ctx where
  sender : Nat
  value : Nat
  timestamp : Nat
  pdData : Option (List Nat)
  treasuryCallOk : Bool

/-- `getPixelKey`: `(x << 128) | y` in uint256 arithmetic. -/
def getPixelKey (x y : Nat) : Nat :=
  ((x <<< 128) ||| y) % W256

/-- keccak256 is modelled abstractly by an injective stand-in (the data
itself); no claim below depends on the value of the hash, only on whether
the `irysPixelHash` entry changed. -/
def keccakModel (data : List Nat) : List Nat := data

/-- The rate-limit block shared by both placement entry points:
`if (minPlacementInterval > 0) { require(block.timestamp >= last + interval);
lastPlacementAt[msg.sender] = block.timestamp; }`. -/
def rateLimitCheck (s : CanvasState) (ctx : Ctx) : Except Err CanvasState :=
  if 0 < s.minPlacementInterval then
    if ctx.timestamp < s.lastPlacementAt ctx.sender + s.minPlacementInterval then
      .error .rateLimited
    else
      .ok { s with lastPlacementAt :=
        fun a => if a = ctx.sender then ctx.timestamp else s.lastPlacementAt a }
  else .ok s

/-- `_autoWithdrawIfNeeded`: sweep the whole balance to the treasury when a
threshold is configured and reached; a failing transfer is ignored (the
placement must not revert). -/
def autoWithdrawIfNeeded (s : CanvasState) (ctx : Ctx) : CanvasState × List Ev :=
  if s.autoWithdrawThreshold = 0 then (s, [])
  else if s.balance < s.autoWithdrawThreshold then (s, [])
  else if s.treasury = 0 then (s, [])
  else if ctx.treasuryCallOk then
    ({ s with balance := 0 }, [.AutoWithdraw s.treasury s.balance ctx.timestamp])
  else (s, [])

/-- Crediting `msg.value` to the contract balance on entry of a payable
function (EVM payable semantics). -/
def payCredit (s : CanvasState) (ctx : Ctx) : CanvasState :=
  { s with balance := s.balance + ctx.value }

/-- `placePixel(x, y, color, irysTxId)`.  The attached value is credited to
the contract balance on entry (EVM payable semantics); the `whenNotPaused`
modifier is the first check. -/
def placePixel (s : CanvasState) (ctx : Ctx) (x y color : Nat) (irysTxId : String) :
    Except Err (CanvasState × List Ev) :=
  if s.paused then .error .contractPaused
  else if ¬ (x < CANVAS_SIZE ∧ y < CANVAS_SIZE) then .error .outOfBounds
  else if ctx.value < s.pixelPrice then .error .insufficientPayment
  else
    match rateLimitCheck (payCredit s ctx) ctx with
    | .error e => .error e
    | .ok s1 =>
      let s2 := { s1 with
        pixels := fun k =>
          if k = getPixelKey x y then
            ⟨color, ctx.sender, ctx.timestamp, irysTxId, false⟩
          else s1.pixels k,
        totalPixelsPlaced := s1.totalPixelsPlaced + 1 }
      let aw := autoWithdrawIfNeeded s2 ctx
      .ok (aw.1, .PixelPlaced x y color ctx.sender ctx.timestamp :: aw.2)

/-- The storage writes of a successful `_readPdChunkIntoStorage`: store the
payload, its hash and the processed flag under `irysTxId`. -/
def pdStore (s : CanvasState) (irysTxId : String) (data : List Nat) : CanvasState :=
  { s with
    irysPixelDetails := fun t => if t = irysTxId then data else s.irysPixelDetails t,
    irysPixelHash := fun t => if t = irysTxId then keccakModel data else s.irysPixelHash t,
    processedIrysData := fun t => if t = irysTxId then true else s.processedIrysData t }

/-- `_readPdChunkIntoStorage`: call `readBytes()`, validate the payload size
(`8 ≤ length ≤ maxProgrammableReadLength`), then store the bytes, their hash
and the processed flag. -/
def readPdChunkIntoStorage (s : CanvasState) (ctx : Ctx) (irysTxId : String) :
    Except Err CanvasState :=
  match ctx.pdData with
  | none => .error .readBytesFailed
  | some data =>
    if ¬ (8 ≤ data.length ∧ data.length ≤ s.maxProgrammableReadLength) then
      .error .invalidPayloadSize
    else
      .ok (pdStore s irysTxId data)

/-- `hexCharToByte`: value of one ASCII hex digit, reverting on anything
else. -/
def hexCharToByte (c : Nat) : Except Err Nat :=
  if 0x30 ≤ c ∧ c ≤ 0x39 then .ok (c - 0x30)
  else if 0x41 ≤ c ∧ c ≤ 0x46 then .ok (c - 0x41 + 10)
  else if 0x61 ≤ c ∧ c ≤ 0x66 then .ok (c - 0x61 + 10)
  else .error .invalidHexChar

/-- Is `c` an ASCII hex digit accepted by `hexCharToByte`? -/
def isHexDigit (c : Nat) : Bool :=
  (0x30 ≤ c ∧ c ≤ 0x39) ∨ (0x41 ≤ c ∧ c ≤ 0x46) ∨ (0x61 ≤ c ∧ c ≤ 0x66)

/-- Numeric value of an ASCII hex digit (meaningful when `isHexDigit c`). -/
def hexVal (c : Nat) : Nat :=
  if 0x30 ≤ c ∧ c ≤ 0x39 then c - 0x30
  else if 0x41 ≤ c ∧ c ≤ 0x46 then c - 0x41 + 10
  else c - 0x61 + 10

/-- `hexStringToBytes3`: convert six hex characters into the `bytes3` value,
assembling the three bytes with shifts and ors exactly like the source. -/
def hexStringToBytes3 (hexString : List Nat) : Except Err Nat :=
  if hexString.length = 6 then do
    let h0 ← hexCharToByte (hexString.getD 0 0)
    let l0 ← hexCharToByte (hexString.getD 1 0)
    let h1 ← hexCharToByte (hexString.getD 2 0)
    let l1 ← hexCharToByte (hexString.getD 3 0)
    let h2 ← hexCharToByte (hexString.getD 4 0)
    let l2 ← hexCharToByte (hexString.getD 5 0)
    .ok ((((h0 <<< 4) ||| l0) <<< 16) ||| (((h1 <<< 4) ||| l1) <<< 8) ||| ((h2 <<< 4) ||| l2))
  else .error .invalidHexLength

/-- Inner loop of `findSubstring`: does `target` occur in `source` at
position `i`? -/
def matchAt (source target : List Nat) (i : Nat) : Bool :=
  (List.range target.length).all fun j => source.getD (i + j) 0 == target.getD j 0

/-- Outer loop of `findSubstring`: try positions `i, i+1, …` for `n`
iterations, returning the first match (the source iterates
`i = 0 … source.length - target.length`). -/
def findSubstringGo (source target : List Nat) : Nat → Nat → Nat
  | 0, _ => UINT256_MAX
  | n + 1, i => if matchAt source target i then i else findSubstringGo source target n (i + 1)

/-- `findSubstring`: first occurrence of `target` in `source`, or
`type(uint256).max` when there is none. -/
def findSubstring (source target : List Nat) : Nat :=
  if target.length > source.length then UINT256_MAX
  else findSubstringGo source target (source.length - target.length + 1) 0

/-- `extractColorFromData`: find the first `#` (byte 35), require six more
characters after it, and convert them with `hexStringToBytes3`. -/
def extractColorFromData (data : List Nat) : Except Err Nat :=
  let hashIndex := findSubstring data [35]
  if hashIndex = UINT256_MAX then .error .invalidColorFormat
  else if ¬ (hashIndex + 7 ≤ data.length) then .error .invalidColorLength
  else hexStringToBytes3 ((List.range 6).map fun i => data.getD (hashIndex + 1 + i) 0)

/-- Spec-side description of "the first `#` of the payload sits at index
`i`": position `i` holds byte 35 and no earlier position does. -/
def isFirstHashAt (data : List Nat) (i : Nat) : Prop :=
  i < data.length ∧ data.getD i 0 = 35 ∧ ∀ j, j < i → data.getD j 0 ≠ 35

instance (data : List Nat) (i : Nat) : Decidable (isFirstHashAt data i) := by
  unfold isFirstHashAt; infer_instance

/-- `placePixelWithProgrammableData(x, y, irysTxId)`. -/
def placePixelWithProgrammableData (s : CanvasState) (ctx : Ctx) (x y : Nat)
    (irysTxId : String) : Except Err (CanvasState × List Ev) :=
  if s.paused then .error .contractPaused
  else if ¬ (x < CANVAS_SIZE ∧ y < CANVAS_SIZE) then .error .outOfBounds
  else if ctx.value < s.pixelPrice then .error .insufficientPayment
  else if s.processedIrysData irysTxId then .error .alreadyProcessed
  else if irysTxId = "" then .error .invalidIrysTxId
  else
    match rateLimitCheck (payCredit s ctx) ctx with
    | .error e => .error e
    | .ok s1 =>
      match readPdChunkIntoStorage s1 ctx irysTxId with
      | .error e => .error e
      | .ok s2 =>
        let data := s2.irysPixelDetails irysTxId
        match extractColorFromData data with
        | .error e => .error e
        | .ok color =>
          let s3 := { s2 with
            pixels := fun k =>
              if k = getPixelKey x y then
                ⟨color, ctx.sender, ctx.timestamp, irysTxId, true⟩
              else s2.pixels k,
            totalPixelsPlaced := s2.totalPixelsPlaced + 1 }
          let aw := autoWithdrawIfNeeded s3 ctx
          .ok (aw.1,
            .PixelPlaced x y color ctx.sender ctx.timestamp ::
            .PixelDataRead x y irysTxId ctx.timestamp ::
            .ProgrammableDataProcessed irysTxId data ctx.timestamp :: aw.2)

/-- `getPixel(x, y)`: bounds check, then return the stored record (the
mapping default `zeroPixel` for a coordinate never written). -/
def getPixel (s : CanvasState) (x y : Nat) : Except Err PixelData :=
  if ¬ (x < CANVAS_SIZE ∧ y < CANVAS_SIZE) then .error .outOfBounds
  else .ok (s.pixels (getPixelKey x y))

/-- Contract state right after `initialize(_pixelPrice, _owner)`. -/
def initialState (price owner : Nat) : CanvasState where
  pixelPrice := price
  maxProgrammableReadLength := 1024
  totalPixelsPlaced := 0
  treasury := owner
  autoWithdrawThreshold := 0
  minPlacementInterval := 60
  lastPlacementAt := fun _ => 0
  pixels := fun _ => zeroPixel
  irysPixelDetails := fun _ => []
  irysPixelHash := fun _ => []
  processedIrysData := fun _ => false
  paused := false
  balance := 0
  version := 2

/-- A placement transaction: one call of either entry point. -/
inductive Cmd where
  | place (x y color : Nat) (irysTxId : String)
  | placePD (x y : Nat) (irysTxId : String)

/-- Run one placement transaction. -/
def runCmd (s : CanvasState) (ctx : Ctx) : Cmd → Except Err (CanvasState × List Ev)
  | .place x y color irysTxId => placePixel s ctx x y color irysTxId
  | .placePD x y irysTxId => placePixelWithProgrammableData s ctx x y irysTxId

/-- Target coordinate of a placement transaction. -/
def cmdCoord : Cmd → Nat × Nat
  | .place x y _ _ => (x, y)
  | .placePD x y _ => (x, y)

/-- Ledger-level application of a transaction: an error is an EVM revert, so
the pre-state is kept unchanged. -/
def applyCmd (s : CanvasState) (ctx : Ctx) (c : Cmd) : CanvasState :=
  match runCmd s ctx c with
  | .ok (s1, _) => s1
  | .error _ => s

/-- Apply a list of transactions in order. -/
def applyAll (s : CanvasState) : List (Ctx × Cmd) → CanvasState
  | [] => s
  | (ctx, c) :: rest => applyAll (applyCmd s ctx c) rest

/-- Did no transaction of the trace succeed at coordinate `p`?  (Failed
attempts at `p` and any transactions elsewhere are allowed.) -/
def noSuccessAt (s : CanvasState) (p : Nat × Nat) : List (Ctx × Cmd) → Bool
  | [] => true
  | (ctx, c) :: rest =>
    (decide (cmdCoord c ≠ p) || !(runCmd s ctx c).isOk) &&
      noSuccessAt (applyCmd s ctx c) p rest

/-!  Derived forms used to state inversion lemmas about the entry points.
They are not part of the source; each is the explicit success result a
successful run of the corresponding source function produces. -/

/-- The rate-limit check passes: either disabled, or the cooldown elapsed. -/
def rateOk (s : CanvasState) (ctx : Ctx) : Prop :=
  s.minPlacementInterval = 0 ∨
    s.lastPlacementAt ctx.sender + s.minPlacementInterval ≤ ctx.timestamp

instance (s : CanvasState) (ctx : Ctx) : Decidable (rateOk s ctx) := by
  unfold rateOk; infer_instance

/-- State change of a passing rate-limit check. -/
def rateLimitApply (s : CanvasState) (ctx : Ctx) : CanvasState :=
  if 0 < s.minPlacementInterval then
    { s with lastPlacementAt :=
      fun a => if a = ctx.sender then ctx.timestamp else s.lastPlacementAt a }
  else s

/-- The success result of `placePixel`. -/
def placePixelOutcome (s : CanvasState) (ctx : Ctx) (x y color : Nat) (ref : String) :
    CanvasState × List Ev :=
  let s1 := rateLimitApply (payCredit s ctx) ctx
  let s2 := { s1 with
    pixels := fun k =>
      if k = getPixelKey x y then ⟨color, ctx.sender, ctx.timestamp, ref, false⟩
      else s1.pixels k,
    totalPixelsPlaced := s1.totalPixelsPlaced + 1 }
  let aw := autoWithdrawIfNeeded s2 ctx
  (aw.1, .PixelPlaced x y color ctx.sender ctx.timestamp :: aw.2)

/-- The success result of `placePixelWithProgrammableData` for payload
`data` and extracted color `color`. -/
def placePdOutcome (s : CanvasState) (ctx : Ctx) (x y : Nat) (ref : String)
    (data : List Nat) (color : Nat) : CanvasState × List Ev :=
  let s2 := pdStore (rateLimitApply (payCredit s ctx) ctx) ref data
  let s3 := { s2 with
    pixels := fun k =>
      if k = getPixelKey x y then ⟨color, ctx.sender, ctx.timestamp, ref, true⟩
      else s2.pixels k,
    totalPixelsPlaced := s2.totalPixelsPlaced + 1 }
  let aw := autoWithdrawIfNeeded s3 ctx
  (aw.1,
    .PixelPlaced x y color ctx.sender ctx.timestamp ::
    .PixelDataRead x y ref ctx.timestamp ::
    .ProgrammableDataProcessed ref data ctx.timestamp :: aw.2)

end PlaceCanvas

namespace CanvasSync

/-- One `PixelPlaced` log entry as returned by `queryPixelPlacedEvents`
(`useCanvasSync.ts`). -/
structure PixelEvent where
  x : Nat
  y : Nat
  color : Nat
  user : Nat
  timestamp : Nat
  blockNumber : Nat
deriving DecidableEq, Repr

/-- The chain's log store: the `PixelPlaced` events of each block, in log
order.  `queryPixelPlacedEvents(from, to)` returns the events of blocks
`from … to` in chain order. -/
def queryPixelPlacedEvents (chain : Nat → List PixelEvent) (fromB toB : Nat) :
    List PixelEvent :=
  ((List.range' fromB (toB + 1 - fromB)).map chain).flatten

/-- `fetchPixelEventsChunked`: fetch `[fromB, toB]` in chunks of
`chunkSize` blocks, concatenating the results.  The source's while loop is
only ever invoked with a positive chunk size (2000); the `chunkSize = 0`
guard is needed for termination of the embedding. -/
def fetchPixelEventsChunked (chain : Nat → List PixelEvent)
    (fromB toB chunkSize : Nat) : List PixelEvent :=
  if chunkSize = 0 then []
  else if _h : toB < fromB then []
  else
    queryPixelPlacedEvents chain fromB (min (fromB + chunkSize - 1) toB) ++
      fetchPixelEventsChunked chain (min (fromB + chunkSize - 1) toB + 1) toB chunkSize
termination_by toB + 1 - fromB
decreasing_by
  simp only [not_lt] at _h
  have h1 : fromB ≤ min (fromB + chunkSize - 1) toB := by
    refine le_min ?_ _h
    omega
  omega

/-- The duplicate-coordinate resolution of `performInitialSync`: fold the
fetched events into a map keyed by coordinate, a later event replacing the
stored one when its block number is at least as large
(`!prev || ev.blockNumber >= prev.blockNumber`). -/
def latestByCoord (evs : List PixelEvent) : Nat × Nat → Option PixelEvent :=
  evs.foldl
    (fun m ev k =>
      if k = (ev.x, ev.y) then
        match m (ev.x, ev.y) with
        | none => some ev
        | some prev => if prev.blockNumber ≤ ev.blockNumber then some ev else some prev
      else m k)
    (fun _ => none)

end CanvasSync

namespace Overlay

/-- An entry of the optimistic overlay (`useOptimisticCanvas`). -/
structure OptimisticPixel where
  x : Nat
  y : Nat
  color : String
  timestamp : Nat
  transactionId : Option String
deriving DecidableEq, Repr

/-- The frontend `PixelData` shape produced by the merge. -/
structure FrontPixel where
  x : Nat
  y : Nat
  color : String
  owner : Option String
  timestamp : Nat
  isOptimistic : Bool
  transactionId : Option String
deriving DecidableEq, Repr

/-- An optimistic entry viewed as a `PixelData` (owner absent,
`isOptimistic = true`). -/
def toFrontPixel (p : OptimisticPixel) : FrontPixel :=
  ⟨p.x, p.y, p.color, none, p.timestamp, true, p.transactionId⟩

/-- State of the `useOptimisticCanvas` hook: the optimistic map keyed by
coordinate and the pending map keyed by transaction id. -/
structure OverlayState where
  optimisticPixels : Nat × Nat → Option OptimisticPixel
  pendingTransactions : String → Option OptimisticPixel

/-- `addOptimisticPixel(x, y, color, transactionId)` at wall-clock time
`now`: insert/overwrite the coordinate's entry, and register it under the
transaction id when one is given. -/
def addOptimisticPixel (now : Nat) (x y : Nat) (color : String)
    (transactionId : Option String) (s : OverlayState) : OverlayState :=
  let p : OptimisticPixel := ⟨x, y, color, now, transactionId⟩
  { optimisticPixels := fun k => if k = (x, y) then some p else s.optimisticPixels k,
    pendingTransactions :=
      match transactionId with
      | some t => fun id => if id = t then some p else s.pendingTransactions id
      | none => s.pendingTransactions }

/-- `removeOptimisticPixel(x, y, transactionId)`. -/
def removeOptimisticPixel (x y : Nat) (transactionId : Option String)
    (s : OverlayState) : OverlayState :=
  { optimisticPixels := fun k => if k = (x, y) then none else s.optimisticPixels k,
    pendingTransactions :=
      match transactionId with
      | some t => fun id => if id = t then none else s.pendingTransactions id
      | none => s.pendingTransactions }

/-- The toast message built by `rollbackOptimisticPixel`. -/
def rollbackMessage (x y : Nat) (reason : Option String) : String :=
  match reason with
  | some r =>
    "Pixel (" ++ toString x ++ ", " ++ toString y ++ ") placement failed: " ++ r
  | none => "Pixel (" ++ toString x ++ ", " ++ toString y ++ ") placement failed"

/-- `rollbackOptimisticPixel(x, y, reason)`: when an entry exists at the
coordinate, delete it (and its pending registration) and surface the
rollback notification; the second component is the `toast.error` message. -/
def rollbackOptimisticPixel (x y : Nat) (reason : Option String)
    (s : OverlayState) : OverlayState × Option String :=
  match s.optimisticPixels (x, y) with
  | none => (s, none)
  | some p =>
    ({ optimisticPixels := fun k => if k = (x, y) then none else s.optimisticPixels k,
       pendingTransactions :=
         match p.transactionId with
         | some t => fun id => if id = t then none else s.pendingTransactions id
         | none => s.pendingTransactions },
     some (rollbackMessage x y reason))

/-- `confirmOptimisticPixel(transactionId)`: look up the pending entry and
remove it; the second component is the `toast.success` message. -/
def confirmOptimisticPixel (transactionId : String) (s : OverlayState) :
    OverlayState × Option String :=
  match s.pendingTransactions transactionId with
  | none => (s, none)
  | some p =>
    (removeOptimisticPixel p.x p.y (some transactionId) s,
     some ("Pixel placed at (" ++ toString p.x ++ ", " ++ toString p.y ++ ")"))

/-- The confirmed-pixel map built by `mergePixelsWithOptimistic`'s first
loop: fold the confirmed list into a map keyed by coordinate (later entries
overwrite earlier ones). -/
def confirmedMap (confirmed : List FrontPixel) : Nat × Nat → Option FrontPixel :=
  confirmed.foldl
    (fun m p k => if k = (p.x, p.y) then some p else m k)
    (fun _ => none)

/-- `mergePixelsWithOptimistic(confirmedPixels)`: confirmed pixels first,
then every optimistic entry overwrites its coordinate, so an optimistic
entry always shadows the confirmed one while present. -/
def mergePixelsWithOptimistic (confirmed : List FrontPixel) (s : OverlayState) :
    Nat × Nat → Option FrontPixel :=
  fun k =>
    match s.optimisticPixels k with
    | some p => some (toFrontPixel p)
    | none => confirmedMap confirmed k

end Overlay

namespace PlaceCanvas

theorem rateLimitCheck_ok_iff {s : CanvasState} {ctx : Ctx} {s1 : CanvasState} :
    rateLimitCheck s ctx = .ok s1 ↔ rateOk s ctx ∧ s1 = rateLimitApply s ctx := by
  by_cases hpos : 0 < s.minPlacementInterval
  · by_cases hlt : ctx.timestamp < s.lastPlacementAt ctx.sender + s.minPlacementInterval
    · simp only [rateLimitCheck, rateLimitApply, rateOk, if_pos hpos, if_pos hlt]
      constructor
      · intro h; exact Except.noConfusion h
      · rintro ⟨h0 | hle, -⟩ <;> omega
    · simp only [rateLimitCheck, rateLimitApply, rateOk, if_pos hpos, if_neg hlt]
      constructor
      · intro h; injection h with h; exact ⟨Or.inr (by omega), h.symm⟩
      · rintro ⟨-, rfl⟩; rfl
  · simp only [rateLimitCheck, rateLimitApply, rateOk, if_neg hpos]
    constructor
    · intro h; injection h with h; exact ⟨Or.inl (by omega), h.symm⟩
    · rintro ⟨-, rfl⟩; rfl

theorem rateLimitCheck_error_iff {s : CanvasState} {ctx : Ctx} {e : Err} :
    rateLimitCheck s ctx = .error e ↔
      e = .rateLimited ∧ 0 < s.minPlacementInterval ∧
        ctx.timestamp < s.lastPlacementAt ctx.sender + s.minPlacementInterval := by
  by_cases hpos : 0 < s.minPlacementInterval
  · by_cases hlt : ctx.timestamp < s.lastPlacementAt ctx.sender + s.minPlacementInterval
    · simp only [rateLimitCheck, if_pos hpos, if_pos hlt]
      constructor
      · intro h; injection h with h; exact ⟨h.symm, hpos, hlt⟩
      · rintro ⟨rfl, -, -⟩; rfl
    · simp only [rateLimitCheck, if_pos hpos, if_neg hlt]
      constructor
      · intro h; exact Except.noConfusion h
      · rintro ⟨-, -, h⟩; exact absurd h hlt
  · simp only [rateLimitCheck, if_neg hpos]
    constructor
    · intro h; exact Except.noConfusion h
    · rintro ⟨-, h, -⟩; exact absurd h hpos

/-- `_autoWithdrawIfNeeded` only ever changes the balance. -/
theorem autoWithdraw_fields (s : CanvasState) (ctx : Ctx) :
    (autoWithdrawIfNeeded s ctx).1 = { s with balance := (autoWithdrawIfNeeded s ctx).1.balance } := by
  unfold autoWithdrawIfNeeded
  repeat' split
  all_goals rfl

theorem placePixel_ok_iff {s : CanvasState} {ctx : Ctx} {x y color : Nat} {ref : String}
    {out : CanvasState × List Ev} :
    placePixel s ctx x y color ref = .ok out ↔
      s.paused = false ∧ (x < CANVAS_SIZE ∧ y < CANVAS_SIZE) ∧ s.pixelPrice ≤ ctx.value ∧
        rateOk s ctx ∧ out = placePixelOutcome s ctx x y color ref := by
  constructor
  · intro h
    unfold placePixel at h
    by_cases hp : s.paused = true
    · rw [if_pos hp] at h; exact Except.noConfusion h
    · rw [if_neg hp] at h
      by_cases hb : x < CANVAS_SIZE ∧ y < CANVAS_SIZE
      · rw [if_neg (not_not_intro hb)] at h
        by_cases hpay : ctx.value < s.pixelPrice
        · rw [if_pos hpay] at h; exact Except.noConfusion h
        · rw [if_neg hpay] at h
          cases hrc : rateLimitCheck (payCredit s ctx) ctx with
          | error e => rw [hrc] at h; exact Except.noConfusion h
          | ok s1 =>
            rw [hrc] at h
            obtain ⟨hrok, rfl⟩ := rateLimitCheck_ok_iff.mp hrc
            injection h with h
            exact ⟨by simpa using hp, hb, Nat.not_lt.mp hpay, hrok, h.symm⟩
      · rw [if_pos hb] at h; exact Except.noConfusion h
  · rintro ⟨hp, hb, hpay, hrok, rfl⟩
    have hrok' : rateOk (payCredit s ctx) ctx := hrok
    unfold placePixel
    rw [if_neg (by simp [hp]), if_neg (not_not_intro hb), if_neg (Nat.not_lt.mpr hpay),
      rateLimitCheck_ok_iff.mpr ⟨hrok', rfl⟩]
    rfl

/-- Claim C1: after a successful `placePixel(x, y, color, dataRef)` call
(payment and rate limit necessarily satisfied), `getPixel(x, y)` returns
exactly the placed color, the caller as `placedBy`, the block timestamp,
the supplied `dataRef`, and `isProgrammableData = false`. -/
theorem claim_C1_place_then_read (s : CanvasState) (ctx : Ctx) (x y color : Nat)
    (ref : String) (s' : CanvasState) (evs : List Ev)
    (h : placePixel s ctx x y color ref = .ok (s', evs)) :
    getPixel s' x y = .ok ⟨color, ctx.sender, ctx.timestamp, ref, false⟩ := by
  rw [placePixel_ok_iff] at h
  obtain ⟨-, hb, -, -, hout⟩ := h
  have hs' : s' = (placePixelOutcome s ctx x y color ref).1 := by
    rw [← hout]
  unfold placePixelOutcome at hs'
  rw [autoWithdraw_fields] at hs'
  unfold getPixel
  rw [if_neg (by exact fun hc => hc hb)]
  rw [hs']
  simp

/-- Witness for C1: the spec scenario — place `(0,0)` with color
`0x112233`, empty data reference, payment equal to the price. -/
theorem claim_C1_witness :
    ∃ s' evs,
      placePixel (initialState 1 7) ⟨5, 1, 100, none, true⟩ 0 0 0x112233 "" = .ok (s', evs) ∧
      getPixel s' 0 0 = .ok ⟨0x112233, 5, 100, "", false⟩ := by
  cases hout : placePixel (initialState 1 7) ⟨5, 1, 100, none, true⟩ 0 0 0x112233 "" with
  | error e =>
    have h1 : (placePixel (initialState 1 7) ⟨5, 1, 100, none, true⟩ 0 0 0x112233 "").isOk = true := by
      decide
    rw [hout] at h1
    exact absurd h1 (by simp [Except.isOk, Except.toBool])
  | ok out =>
    obtain ⟨s1, evs1⟩ := out
    exact ⟨s1, evs1, rfl, claim_C1_place_then_read _ _ _ _ _ _ _ _ hout⟩

/-- `rateLimitApply` only ever changes the `lastPlacementAt` table. -/
theorem rateLimitApply_eq (s : CanvasState) (ctx : Ctx) :
    rateLimitApply s ctx =
      { s with lastPlacementAt := (rateLimitApply s ctx).lastPlacementAt } := by
  unfold rateLimitApply
  split <;> rfl

theorem rateLimitApply_max (s : CanvasState) (ctx : Ctx) :
    (rateLimitApply s ctx).maxProgrammableReadLength = s.maxProgrammableReadLength := by
  unfold rateLimitApply
  split <;> rfl

theorem pdStore_details_self (s : CanvasState) (ref : String) (data : List Nat) :
    (pdStore s ref data).irysPixelDetails ref = data := by
  simp [pdStore]

theorem pdStore_processed_self (s : CanvasState) (ref : String) (data : List Nat) :
    (pdStore s ref data).processedIrysData ref = true := by
  simp [pdStore]

theorem readPd_ok_iff {s : CanvasState} {ctx : Ctx} {ref : String} {s2 : CanvasState} :
    readPdChunkIntoStorage s ctx ref = .ok s2 ↔
      ∃ data, ctx.pdData = some data ∧ 8 ≤ data.length ∧
        data.length ≤ s.maxProgrammableReadLength ∧ s2 = pdStore s ref data := by
  constructor
  · intro h
    unfold readPdChunkIntoStorage at h
    split at h
    · exact Except.noConfusion h
    · next data heq =>
      split at h
      · exact Except.noConfusion h
      · next hsz =>
        rw [not_not] at hsz
        injection h with h
        exact ⟨data, heq, hsz.1, hsz.2, h.symm⟩
  · rintro ⟨data, hd, h8, hlen, rfl⟩
    unfold readPdChunkIntoStorage
    rw [hd]
    show (if ¬ (8 ≤ data.length ∧ data.length ≤ s.maxProgrammableReadLength) then
        Except.error Err.invalidPayloadSize
      else Except.ok (pdStore s ref data)) = Except.ok (pdStore s ref data)
    rw [if_neg (not_not_intro ⟨h8, hlen⟩)]

theorem placePd_ok_iff {s : CanvasState} {ctx : Ctx} {x y : Nat} {ref : String}
    {out : CanvasState × List Ev} :
    placePixelWithProgrammableData s ctx x y ref = .ok out ↔
      s.paused = false ∧ (x < CANVAS_SIZE ∧ y < CANVAS_SIZE) ∧ s.pixelPrice ≤ ctx.value ∧
        s.processedIrysData ref = false ∧ ref ≠ "" ∧ rateOk s ctx ∧
        ∃ data, ctx.pdData = some data ∧ 8 ≤ data.length ∧
          data.length ≤ s.maxProgrammableReadLength ∧
          ∃ color, extractColorFromData data = .ok color ∧
            out = placePdOutcome s ctx x y ref data color := by
  constructor
  · intro h
    unfold placePixelWithProgrammableData at h
    split at h
    · exact Except.noConfusion h
    next hp =>
    split at h
    · exact Except.noConfusion h
    next hb =>
    split at h
    · exact Except.noConfusion h
    next hpay =>
    split at h
    · exact Except.noConfusion h
    next hpr =>
    split at h
    · exact Except.noConfusion h
    next hemp =>
    split at h
    · exact Except.noConfusion h
    next s1 hrc =>
    obtain ⟨hrok, rfl⟩ := rateLimitCheck_ok_iff.mp hrc
    split at h
    · exact Except.noConfusion h
    next s2 hrd =>
    obtain ⟨data, hdat, h8, hlen, rfl⟩ := readPd_ok_iff.mp hrd
    simp only [pdStore_details_self] at h
    split at h
    · exact Except.noConfusion h
    next color hext =>
    injection h with h
    rw [not_not] at hb
    rw [rateLimitApply_max] at hlen
    exact ⟨by simpa using hp, hb, Nat.not_lt.mp hpay, by simpa using hpr,
      hemp, hrok, data, hdat, h8, hlen, color, hext, h.symm⟩
  · rintro ⟨hp, hb, hpay, hpr, hemp, hrok, data, hdat, h8, hlen, color, hext, rfl⟩
    have hrok' : rateOk (payCredit s ctx) ctx := hrok
    have hrd : readPdChunkIntoStorage (rateLimitApply (payCredit s ctx) ctx) ctx ref =
        .ok (pdStore (rateLimitApply (payCredit s ctx) ctx) ref data) :=
      readPd_ok_iff.mpr ⟨data, hdat, h8, by rw [rateLimitApply_max]; exact hlen, rfl⟩
    unfold placePixelWithProgrammableData
    rw [if_neg (by simp [hp]), if_neg (not_not_intro hb), if_neg (Nat.not_lt.mpr hpay),
      if_neg (by simp [hpr]), if_neg hemp, rateLimitCheck_ok_iff.mpr ⟨hrok', rfl⟩]
    simp only [hrd, pdStore_details_self, hext]
    rfl

theorem rateLimitApply_last_sender (s : CanvasState) (ctx : Ctx)
    (hpos : 0 < s.minPlacementInterval) :
    (rateLimitApply s ctx).lastPlacementAt ctx.sender = ctx.timestamp := by
  unfold rateLimitApply
  rw [if_pos hpos]
  simp

/-- An attempt that reaches the rate-limit check inside the cooldown window
reverts with the rate-limit error (`placePixel`). -/
theorem placePixel_rateLimited {s : CanvasState} {ctx : Ctx} {x y color : Nat} {ref : String}
    (hp : s.paused = false) (hb : x < CANVAS_SIZE ∧ y < CANVAS_SIZE)
    (hpay : s.pixelPrice ≤ ctx.value) (hpos : 0 < s.minPlacementInterval)
    (hlt : ctx.timestamp < s.lastPlacementAt ctx.sender + s.minPlacementInterval) :
    placePixel s ctx x y color ref = .error .rateLimited := by
  unfold placePixel
  rw [if_neg (by simp [hp]), if_neg (not_not_intro hb), if_neg (Nat.not_lt.mpr hpay),
    (@rateLimitCheck_error_iff (payCredit s ctx) ctx Err.rateLimited).mpr ⟨rfl, hpos, hlt⟩]

/-- An attempt that reaches the rate-limit check inside the cooldown window
reverts with the rate-limit error (`placePixelWithProgrammableData`). -/
theorem placePd_rateLimited {s : CanvasState} {ctx : Ctx} {x y : Nat} {ref : String}
    (hp : s.paused = false) (hb : x < CANVAS_SIZE ∧ y < CANVAS_SIZE)
    (hpay : s.pixelPrice ≤ ctx.value) (hpr : s.processedIrysData ref = false)
    (hemp : ref ≠ "") (hpos : 0 < s.minPlacementInterval)
    (hlt : ctx.timestamp < s.lastPlacementAt ctx.sender + s.minPlacementInterval) :
    placePixelWithProgrammableData s ctx x y ref = .error .rateLimited := by
  unfold placePixelWithProgrammableData
  rw [if_neg (by simp [hp]), if_neg (not_not_intro hb), if_neg (Nat.not_lt.mpr hpay),
    if_neg (by simp [hpr]), if_neg hemp,
    (@rateLimitCheck_error_iff (payCredit s ctx) ctx Err.rateLimited).mpr ⟨rfl, hpos, hlt⟩]

/-- Field bookkeeping of a successful `placePixel`. -/
theorem placePixel_ok_proj {s : CanvasState} {ctx : Ctx} {x y color : Nat} {ref : String}
    {s' : CanvasState} {evs : List Ev}
    (h : placePixel s ctx x y color ref = .ok (s', evs)) :
    s'.minPlacementInterval = s.minPlacementInterval ∧
    s'.paused = s.paused ∧
    s'.pixelPrice = s.pixelPrice ∧
    s'.lastPlacementAt = (rateLimitApply (payCredit s ctx) ctx).lastPlacementAt ∧
    s'.pixels (getPixelKey x y) = ⟨color, ctx.sender, ctx.timestamp, ref, false⟩ ∧
    (∀ k, k ≠ getPixelKey x y → s'.pixels k = s.pixels k) ∧
    s'.totalPixelsPlaced = s.totalPixelsPlaced + 1 ∧
    s'.processedIrysData = s.processedIrysData ∧
    s'.irysPixelDetails = s.irysPixelDetails ∧
    s'.maxProgrammableReadLength = s.maxProgrammableReadLength := by
  rw [placePixel_ok_iff] at h
  obtain ⟨-, -, -, -, hout⟩ := h
  have hs' : s' = (placePixelOutcome s ctx x y color ref).1 := by rw [← hout]
  subst hs'
  simp only [placePixelOutcome]
  rw [autoWithdraw_fields]
  refine ⟨by rw [rateLimitApply_eq]; rfl, by rw [rateLimitApply_eq]; rfl,
    by rw [rateLimitApply_eq]; rfl, rfl, by simp, ?_,
    by rw [rateLimitApply_eq]; rfl, by rw [rateLimitApply_eq]; rfl,
    by rw [rateLimitApply_eq]; rfl, by rw [rateLimitApply_eq]; rfl⟩
  intro k hk
  simp only [if_neg hk]
  rw [rateLimitApply_eq]
  rfl

/-- Claim C2: with a positive `minPlacementInterval` `m`, a successful
placement at ledger time `t0` records `lastPlacementAt[sender] = t0` in the
same state transition; every further attempt by the same sender that
reaches the rate-limit check strictly before `t0 + m` reverts with the
rate-limit error (both entry points), and an attempt at or after `t0 + m`
passes the rate-limit check — the boundary time `t0 + m` itself succeeds. -/
theorem claim_C2_rate_limit (s : CanvasState) (ctx0 : Ctx) (x0 y0 c0 : Nat) (ref0 : String)
    (s1 : CanvasState) (evs0 : List Ev)
    (hm : 0 < s.minPlacementInterval)
    (h0 : placePixel s ctx0 x0 y0 c0 ref0 = .ok (s1, evs0)) :
    s1.lastPlacementAt ctx0.sender = ctx0.timestamp ∧
    (∀ ctx x y c ref, ctx.sender = ctx0.sender →
      ctx.timestamp < ctx0.timestamp + s.minPlacementInterval →
      (x < CANVAS_SIZE ∧ y < CANVAS_SIZE) → s.pixelPrice ≤ ctx.value →
      placePixel s1 ctx x y c ref = .error .rateLimited) ∧
    (∀ ctx x y ref, ctx.sender = ctx0.sender →
      ctx.timestamp < ctx0.timestamp + s.minPlacementInterval →
      (x < CANVAS_SIZE ∧ y < CANVAS_SIZE) → s.pixelPrice ≤ ctx.value →
      s1.processedIrysData ref = false → ref ≠ "" →
      placePixelWithProgrammableData s1 ctx x y ref = .error .rateLimited) ∧
    (∀ ctx x y c ref, ctx.sender = ctx0.sender →
      ctx0.timestamp + s.minPlacementInterval ≤ ctx.timestamp →
      (x < CANVAS_SIZE ∧ y < CANVAS_SIZE) → s.pixelPrice ≤ ctx.value →
      ∃ out, placePixel s1 ctx x y c ref = .ok out) := by
  have hp0 : s.paused = false := (placePixel_ok_iff.mp h0).1
  obtain ⟨hint, hpaused, hprice, hlast, -, -, -, -, -, -⟩ := placePixel_ok_proj h0
  have hlastsender : s1.lastPlacementAt ctx0.sender = ctx0.timestamp := by
    rw [hlast]
    exact rateLimitApply_last_sender (payCredit s ctx0) ctx0 hm
  refine ⟨hlastsender, ?_, ?_, ?_⟩
  · intro ctx x y c ref hsend hlt hb hpay
    refine placePixel_rateLimited (by rw [hpaused]; exact hp0) hb
      (by rw [hprice]; exact hpay) (by rw [hint]; exact hm) ?_
    rw [hsend, hlastsender, hint]
    exact hlt
  · intro ctx x y ref hsend hlt hb hpay hpr hemp
    refine placePd_rateLimited (by rw [hpaused]; exact hp0) hb
      (by rw [hprice]; exact hpay) hpr hemp (by rw [hint]; exact hm) ?_
    rw [hsend, hlastsender, hint]
    exact hlt
  · intro ctx x y c ref hsend hge hb hpay
    refine ⟨placePixelOutcome s1 ctx x y c ref, placePixel_ok_iff.mpr
      ⟨by rw [hpaused]; exact hp0, hb, by rw [hprice]; exact hpay, Or.inr ?_, rfl⟩⟩
    rw [hsend, hlastsender, hint]
    exact hge

/-- Witness for C2: with the initial 60-second interval, place at `t0 = 100`;
a retry at `t = 159` is rate-limited through both entry points, and a retry
at the boundary `t = 160` succeeds. -/
theorem claim_C2_witness :
    ∃ s1 evs,
      placePixel (initialState 1 7) ⟨5, 1, 100, none, true⟩ 2 3 9 "" = .ok (s1, evs) ∧
      s1.lastPlacementAt 5 = 100 ∧
      placePixel s1 ⟨5, 1, 159, none, true⟩ 4 4 9 "" = .error .rateLimited ∧
      placePixelWithProgrammableData s1 ⟨5, 1, 159, none, true⟩ 4 4 "tx" = .error .rateLimited ∧
      ∃ out, placePixel s1 ⟨5, 1, 160, none, true⟩ 4 4 9 "" = .ok out := by
  cases hout : placePixel (initialState 1 7) ⟨5, 1, 100, none, true⟩ 2 3 9 "" with
  | error e =>
    have h1 : (placePixel (initialState 1 7) ⟨5, 1, 100, none, true⟩ 2 3 9 "").isOk = true := by
      decide
    rw [hout] at h1
    exact absurd h1 (by simp [Except.isOk, Except.toBool])
  | ok out =>
    obtain ⟨s1, evs⟩ := out
    obtain ⟨ha, hrej, hrejpd, hok⟩ :=
      claim_C2_rate_limit (initialState 1 7) ⟨5, 1, 100, none, true⟩ 2 3 9 "" s1 evs
        (by decide) hout
    have hpr : s1.processedIrysData "tx" = false := by
      obtain ⟨-, -, -, -, -, -, -, hproc, -, -⟩ := placePixel_ok_proj hout
      rw [hproc]
      decide
    exact ⟨s1, evs, rfl, ha,
      hrej ⟨5, 1, 159, none, true⟩ 4 4 9 "" rfl (by decide) (by decide) (by decide),
      hrejpd ⟨5, 1, 159, none, true⟩ 4 4 "tx" rfl (by decide) (by decide) (by decide) hpr
        (by decide),
      hok ⟨5, 1, 160, none, true⟩ 4 4 9 "" rfl (by decide) (by decide) (by decide)⟩

/-- Field bookkeeping of a successful `placePixelWithProgrammableData`. -/
theorem placePd_ok_proj {s : CanvasState} {ctx : Ctx} {x y : Nat} {ref : String}
    {s' : CanvasState} {evs : List Ev}
    (h : placePixelWithProgrammableData s ctx x y ref = .ok (s', evs)) :
    (∃ data color, ctx.pdData = some data ∧ extractColorFromData data = .ok color ∧
      s'.pixels (getPixelKey x y) = ⟨color, ctx.sender, ctx.timestamp, ref, true⟩) ∧
    s'.processedIrysData = (fun t => if t = ref then true else s.processedIrysData t) ∧
    s'.minPlacementInterval = s.minPlacementInterval ∧
    s'.paused = s.paused ∧
    s'.pixelPrice = s.pixelPrice ∧
    (∀ k, k ≠ getPixelKey x y → s'.pixels k = s.pixels k) ∧
    s'.totalPixelsPlaced = s.totalPixelsPlaced + 1 := by
  rw [placePd_ok_iff] at h
  obtain ⟨-, -, -, -, -, -, data, hdat, -, -, color, hext, hout⟩ := h
  have hs' : s' = (placePdOutcome s ctx x y ref data color).1 := by rw [← hout]
  subst hs'
  simp only [placePdOutcome]
  rw [autoWithdraw_fields]
  refine ⟨⟨data, color, hdat, hext, by simp⟩, ?_, by rw [rateLimitApply_eq]; rfl,
    by rw [rateLimitApply_eq]; rfl, by rw [rateLimitApply_eq]; rfl, ?_,
    by rw [rateLimitApply_eq]; rfl⟩
  · show (pdStore (rateLimitApply (payCredit s ctx) ctx) ref data).processedIrysData = _
    unfold pdStore
    rw [rateLimitApply_eq]
    rfl
  · intro k hk
    simp only [if_neg hk]
    show (pdStore (rateLimitApply (payCredit s ctx) ctx) ref data).pixels k = s.pixels k
    unfold pdStore
    rw [rateLimitApply_eq]
    rfl

/-- A `_readPdChunkIntoStorage` call whose payload violates the size bounds
reverts with the payload-size error. -/
theorem readPd_payloadSize {s : CanvasState} {ctx : Ctx} {ref : String} {data : List Nat}
    (hd : ctx.pdData = some data)
    (hsz : ¬ (8 ≤ data.length ∧ data.length ≤ s.maxProgrammableReadLength)) :
    readPdChunkIntoStorage s ctx ref = .error .invalidPayloadSize := by
  unfold readPdChunkIntoStorage
  rw [hd]
  show (if ¬ (8 ≤ data.length ∧ data.length ≤ s.maxProgrammableReadLength) then
      Except.error Err.invalidPayloadSize
    else Except.ok (pdStore s ref data)) = Except.error Err.invalidPayloadSize
  rw [if_pos hsz]

/-- A verified placement whose payload violates the size bounds reverts with
the payload-size error, provided every earlier check passes. -/
theorem placePd_payloadSize {s : CanvasState} {ctx : Ctx} {x y : Nat} {ref : String}
    {data : List Nat}
    (hp : s.paused = false) (hb : x < CANVAS_SIZE ∧ y < CANVAS_SIZE)
    (hpay : s.pixelPrice ≤ ctx.value) (hpr : s.processedIrysData ref = false)
    (hemp : ref ≠ "") (hrok : rateOk s ctx) (hd : ctx.pdData = some data)
    (hsz : ¬ (8 ≤ data.length ∧ data.length ≤ s.maxProgrammableReadLength)) :
    placePixelWithProgrammableData s ctx x y ref = .error .invalidPayloadSize := by
  have hrok' : rateOk (payCredit s ctx) ctx := hrok
  have hrd : readPdChunkIntoStorage (rateLimitApply (payCredit s ctx) ctx) ctx ref =
      .error .invalidPayloadSize :=
    readPd_payloadSize hd (by rw [rateLimitApply_max]; exact hsz)
  unfold placePixelWithProgrammableData
  rw [if_neg (by simp [hp]), if_neg (not_not_intro hb), if_neg (Nat.not_lt.mpr hpay),
    if_neg (by simp [hpr]), if_neg hemp, rateLimitCheck_ok_iff.mpr ⟨hrok', rfl⟩]
  simp only [hrd]

/-- Claim C3: whenever either placement entry point fails — for any reason —
the applied ledger transaction leaves the entire contract state unchanged
(EVM revert); in particular a payload-size violation reverts with the
payload-size error and leaves `processed[dataRef]` untouched (false). -/
theorem claim_C3_atomicity :
    (∀ (s : CanvasState) (ctx : Ctx) (c : Cmd),
        (runCmd s ctx c).isOk = false → applyCmd s ctx c = s) ∧
    (∀ (s : CanvasState) (ctx : Ctx) (x y : Nat) (ref : String) (data : List Nat),
        s.paused = false → (x < CANVAS_SIZE ∧ y < CANVAS_SIZE) →
        s.pixelPrice ≤ ctx.value → s.processedIrysData ref = false → ref ≠ "" →
        rateOk s ctx → ctx.pdData = some data →
        (data.length < 8 ∨ s.maxProgrammableReadLength < data.length) →
        runCmd s ctx (.placePD x y ref) = .error .invalidPayloadSize ∧
          applyCmd s ctx (.placePD x y ref) = s ∧
          (applyCmd s ctx (.placePD x y ref)).processedIrysData ref = false) := by
  constructor
  · intro s ctx c h
    unfold applyCmd
    split
    · next s1 evs1 heq =>
      rw [heq] at h
      exact absurd h (by simp [Except.isOk, Except.toBool])
    · rfl
  · intro s ctx x y ref data hp hb hpay hpr hemp hrok hd hsz
    have herr : placePixelWithProgrammableData s ctx x y ref = .error .invalidPayloadSize :=
      placePd_payloadSize hp hb hpay hpr hemp hrok hd (by omega)
    have hrun : runCmd s ctx (.placePD x y ref) = .error .invalidPayloadSize := herr
    have happ : applyCmd s ctx (.placePD x y ref) = s := by
      unfold applyCmd
      rw [hrun]
    exact ⟨hrun, happ, by rw [happ]; exact hpr⟩

/-- Witness for C3: an out-of-bounds `placePixel` leaves the fresh state
unchanged, and a verified placement with a 3-byte payload is rejected with
the payload-size error without marking the data reference processed. -/
theorem claim_C3_witness :
    applyCmd (initialState 1 7) ⟨5, 1, 100, none, true⟩ (.place 2000 0 5 "") =
      initialState 1 7 ∧
    runCmd (initialState 1 7) ⟨5, 1, 100, some [1, 2, 3], true⟩ (.placePD 1 1 "tx") =
      .error .invalidPayloadSize ∧
    applyCmd (initialState 1 7) ⟨5, 1, 100, some [1, 2, 3], true⟩ (.placePD 1 1 "tx") =
      initialState 1 7 ∧
    (applyCmd (initialState 1 7) ⟨5, 1, 100, some [1, 2, 3], true⟩
        (.placePD 1 1 "tx")).processedIrysData "tx" = false := by
  obtain ⟨hrun, happ, hproc⟩ :=
    claim_C3_atomicity.2 (initialState 1 7) ⟨5, 1, 100, some [1, 2, 3], true⟩ 1 1 "tx"
      [1, 2, 3] (by decide) (by decide) (by decide) (by decide) (by decide)
      (Or.inr (by decide)) rfl (by decide)
  exact ⟨claim_C3_atomicity.1 (initialState 1 7) ⟨5, 1, 100, none, true⟩
    (.place 2000 0 5 "") (by decide), hrun, happ, hproc⟩

/-- Claim C5: replay protection — a successful verified placement requires a
fresh, non-empty `dataRef` and marks it processed in the same transition; a
placement with an already-processed `dataRef` can never succeed, a verified
placement with an empty `dataRef` can never succeed, and no transaction ever
clears the processed flag, so at most one verified placement can ever
succeed per `dataRef`. -/
theorem claim_C5_replay_protection :
    (∀ (s : CanvasState) (ctx : Ctx) (x y : Nat) (ref : String) (s' : CanvasState)
        (evs : List Ev),
        placePixelWithProgrammableData s ctx x y ref = .ok (s', evs) →
        s.processedIrysData ref = false ∧ ref ≠ "" ∧ s'.processedIrysData ref = true) ∧
    (∀ (s : CanvasState) (ctx : Ctx) (x y : Nat) (ref : String),
        s.processedIrysData ref = true →
        ∀ out, placePixelWithProgrammableData s ctx x y ref ≠ .ok out) ∧
    (∀ (s : CanvasState) (ctx : Ctx) (x y : Nat),
        ∀ out, placePixelWithProgrammableData s ctx x y "" ≠ .ok out) ∧
    (∀ (s : CanvasState) (ctx : Ctx) (c : Cmd) (ref : String),
        s.processedIrysData ref = true →
        (applyCmd s ctx c).processedIrysData ref = true) := by
  refine ⟨?_, ?_, ?_, ?_⟩
  · intro s ctx x y ref s' evs h
    have hiff := placePd_ok_iff.mp h
    obtain ⟨-, hpfun, -, -, -, -, -⟩ := placePd_ok_proj h
    refine ⟨by simpa using hiff.2.2.2.1, hiff.2.2.2.2.1, ?_⟩
    rw [hpfun]
    simp
  · intro s ctx x y ref hpr out hok
    have := (placePd_ok_iff.mp hok).2.2.2.1
    rw [hpr] at this
    exact Bool.noConfusion this
  · intro s ctx x y out hok
    exact (placePd_ok_iff.mp hok).2.2.2.2.1 rfl
  · intro s ctx c ref hpr
    unfold applyCmd
    split
    · next s1 evs1 heq =>
      cases c with
      | place x y color ref2 =>
        obtain ⟨-, -, -, -, -, -, -, hproc, -, -⟩ := placePixel_ok_proj heq
        rw [hproc]
        exact hpr
      | placePD x y ref2 =>
        obtain ⟨-, hpfun, -, -, -, -, -⟩ := placePd_ok_proj heq
        rw [hpfun]
        by_cases hrr : ref = ref2
        · simp [hrr]
        · simp [hrr, hpr]
    · exact hpr

/-- Witness for C5: a concrete successful verified placement on the fresh
state marks its `dataRef` processed, after which the same `dataRef` is
rejected; the empty `dataRef` is always rejected. -/
theorem claim_C5_witness :
    ∃ s' evs,
      placePixelWithProgrammableData (initialState 1 7)
          ⟨5, 1, 100, some [40, 35, 97, 97, 98, 98, 99, 99, 41], true⟩ 3 4 "tx" =
        .ok (s', evs) ∧
      s'.processedIrysData "tx" = true ∧
      (∀ out, placePixelWithProgrammableData s'
          ⟨5, 1, 200, some [40, 35, 97, 97, 98, 98, 99, 99, 41], true⟩ 3 4 "tx" ≠ .ok out) ∧
      (∀ out, placePixelWithProgrammableData (initialState 1 7)
          ⟨5, 1, 100, some [40, 35, 97, 97, 98, 98, 99, 99, 41], true⟩ 3 4 "" ≠ .ok out) := by
  cases hout : placePixelWithProgrammableData (initialState 1 7)
      ⟨5, 1, 100, some [40, 35, 97, 97, 98, 98, 99, 99, 41], true⟩ 3 4 "tx" with
  | error e =>
    have h1 : (placePixelWithProgrammableData (initialState 1 7)
        ⟨5, 1, 100, some [40, 35, 97, 97, 98, 98, 99, 99, 41], true⟩ 3 4 "tx").isOk = true := by
      decide
    rw [hout] at h1
    exact absurd h1 (by simp [Except.isOk, Except.toBool])
  | ok out =>
    obtain ⟨s1, evs1⟩ := out
    obtain ⟨-, -, hmarked⟩ := claim_C5_replay_protection.1 _ _ _ _ _ _ _ hout
    exact ⟨s1, evs1, rfl, hmarked,
      fun o => claim_C5_replay_protection.2.1 s1 _ 3 4 "tx" hmarked o,
      fun o => claim_C5_replay_protection.2.2.1 (initialState 1 7) _ 3 4 o⟩

/-- When the threshold is configured and reached and the treasury is set,
`_autoWithdrawIfNeeded` attempts the sweep: on a successful call the whole
balance moves and the event is emitted, on a failing call nothing changes —
and in neither case does it revert. -/
theorem autoWithdraw_spec (s : CanvasState) (ctx : Ctx)
    (hth : s.autoWithdrawThreshold ≠ 0) (hbal : s.autoWithdrawThreshold ≤ s.balance)
    (htr : s.treasury ≠ 0) :
    autoWithdrawIfNeeded s ctx =
      if ctx.treasuryCallOk then
        ({ s with balance := 0 }, [.AutoWithdraw s.treasury s.balance ctx.timestamp])
      else (s, []) := by
  unfold autoWithdrawIfNeeded
  rw [if_neg hth, if_neg (Nat.not_lt.mpr hbal), if_neg htr]

/-- Claim C9: a placement that passes its checks succeeds regardless of the
outcome of the treasury sweep; when the auto-withdraw threshold is
configured, reached by the post-payment balance, and the treasury is set,
the contract attempts to transfer the whole balance, and a failing transfer
does not revert the placement — the pixel record, rate-limit update,
counter increment and placement event are all retained. -/
theorem claim_C9_auto_withdraw (s : CanvasState) (ctx : Ctx) (x y color : Nat) (ref : String)
    (hp : s.paused = false) (hb : x < CANVAS_SIZE ∧ y < CANVAS_SIZE)
    (hpay : s.pixelPrice ≤ ctx.value) (hrok : rateOk s ctx)
    (hth : 0 < s.autoWithdrawThreshold)
    (hbal : s.autoWithdrawThreshold ≤ s.balance + ctx.value)
    (htr : s.treasury ≠ 0) :
    ∃ s' evs, placePixel s ctx x y color ref = .ok (s', evs) ∧
      s'.pixels (getPixelKey x y) = ⟨color, ctx.sender, ctx.timestamp, ref, false⟩ ∧
      s'.totalPixelsPlaced = s.totalPixelsPlaced + 1 ∧
      s'.lastPlacementAt = (rateLimitApply (payCredit s ctx) ctx).lastPlacementAt ∧
      Ev.PixelPlaced x y color ctx.sender ctx.timestamp ∈ evs ∧
      (ctx.treasuryCallOk = true → s'.balance = 0 ∧
        Ev.AutoWithdraw s.treasury (s.balance + ctx.value) ctx.timestamp ∈ evs) ∧
      (ctx.treasuryCallOk = false → s'.balance = s.balance + ctx.value) := by
  have hok : placePixel s ctx x y color ref = .ok (placePixelOutcome s ctx x y color ref) :=
    placePixel_ok_iff.mpr ⟨hp, hb, hpay, hrok, rfl⟩
  obtain ⟨-, -, -, hlast, hpix, -, htot, -, -, -⟩ :=
    @placePixel_ok_proj s ctx x y color ref (placePixelOutcome s ctx x y color ref).1
      (placePixelOutcome s ctx x y color ref).2 hok
  refine ⟨(placePixelOutcome s ctx x y color ref).1, (placePixelOutcome s ctx x y color ref).2,
    hok, hpix, htot, hlast, ?_, ?_, ?_⟩ <;>
    simp only [placePixelOutcome] <;>
    rw [autoWithdraw_spec _ ctx
      (by rw [rateLimitApply_eq]; show s.autoWithdrawThreshold ≠ 0; omega)
      (by rw [rateLimitApply_eq]; show s.autoWithdrawThreshold ≤ s.balance + ctx.value
          exact hbal)
      (by rw [rateLimitApply_eq]; show s.treasury ≠ 0; exact htr)]
  · cases hcall : ctx.treasuryCallOk <;> simp
  · intro hcall
    rw [if_pos hcall]
    constructor
    · rfl
    · show _ ∈ Ev.PixelPlaced x y color ctx.sender ctx.timestamp ::
        [Ev.AutoWithdraw _ _ ctx.timestamp]
      have e2 : (rateLimitApply (payCredit s ctx) ctx).balance = s.balance + ctx.value := by
        rw [rateLimitApply_eq]; rfl
      have e3 : (rateLimitApply (payCredit s ctx) ctx).treasury = s.treasury := by
        rw [rateLimitApply_eq]; rfl
      simp [e2, e3]
  · intro hcall
    rw [if_neg (by simp [hcall])]
    show (rateLimitApply (payCredit s ctx) ctx).balance = s.balance + ctx.value
    rw [rateLimitApply_eq]; rfl

/-- Witness for C9: threshold 2, balance reached by the payment, treasury
set, and a FAILING treasury call — the placement still succeeds and every
record is retained, with the balance kept in the contract. -/
theorem claim_C9_witness :
    ∃ s' evs,
      placePixel { initialState 1 7 with autoWithdrawThreshold := 2, balance := 3 }
          ⟨5, 1, 100, none, false⟩ 6 7 9 "" = .ok (s', evs) ∧
      s'.pixels (getPixelKey 6 7) = ⟨9, 5, 100, "", false⟩ ∧
      s'.totalPixelsPlaced = 1 ∧
      Ev.PixelPlaced 6 7 9 5 100 ∈ evs ∧
      s'.balance = 4 := by
  obtain ⟨s', evs, hok, hpix, htot, -, hmem, -, hfail⟩ :=
    claim_C9_auto_withdraw { initialState 1 7 with autoWithdrawThreshold := 2, balance := 3 }
      ⟨5, 1, 100, none, false⟩ 6 7 9 "" (by decide) (by decide) (by decide)
      (Or.inr (by decide)) (by decide) (by decide) (by decide)
  exact ⟨s', evs, hok, hpix, htot, hmem, hfail rfl⟩

/-- Within 128 bits per coordinate the uint256 wrap-around in `getPixelKey`
is inactive. -/
theorem getPixelKey_eq_of_lt {x y : Nat} (hx : x < 2 ^ 128) (hy : y < 2 ^ 128) :
    getPixelKey x y = (x <<< 128) ||| y := by
  unfold getPixelKey W256
  refine Nat.mod_eq_of_lt (Nat.or_lt_two_pow ?_ ?_)
  · rw [Nat.shiftLeft_eq]
    have h1 : x * 2 ^ 128 < 2 ^ 128 * 2 ^ 128 := by
      exact mul_lt_mul_of_pos_right hx (by positivity)
    have h2 : (2 : Nat) ^ 128 * 2 ^ 128 = 2 ^ 256 := by rw [← pow_add]
    omega
  · exact lt_trans hy (by norm_num)

/-- `getPixelKey` is injective as long as each coordinate fits in 128 bits. -/
theorem getPixelKey_inj {x1 y1 x2 y2 : Nat} (hx1 : x1 < 2 ^ 128) (hy1 : y1 < 2 ^ 128)
    (hx2 : x2 < 2 ^ 128) (hy2 : y2 < 2 ^ 128)
    (h : getPixelKey x1 y1 = getPixelKey x2 y2) : x1 = x2 ∧ y1 = y2 := by
  rw [getPixelKey_eq_of_lt hx1 hy1, getPixelKey_eq_of_lt hx2 hy2] at h
  have hbit : ∀ i, ((x1 <<< 128) ||| y1).testBit i = ((x2 <<< 128) ||| y2).testBit i :=
    fun i => by rw [h]
  have hhigh : ∀ (y : Nat), y < 2 ^ 128 → ∀ i, 128 ≤ i → y.testBit i = false := by
    intro y hy i hi
    exact Nat.testBit_lt_two_pow
      (lt_of_lt_of_le hy (Nat.pow_le_pow_right (by norm_num) hi))
  constructor
  · apply Nat.eq_of_testBit_eq
    intro j
    have h1 := hbit (j + 128)
    rw [Nat.testBit_lor, Nat.testBit_lor, Nat.testBit_shiftLeft, Nat.testBit_shiftLeft,
      hhigh y1 hy1 (j + 128) (by omega), hhigh y2 hy2 (j + 128) (by omega)] at h1
    have hge : 128 ≤ j + 128 := by omega
    simpa [hge] using h1
  · apply Nat.eq_of_testBit_eq
    intro i
    by_cases hi : i < 128
    · have h1 := hbit i
      rw [Nat.testBit_lor, Nat.testBit_lor, Nat.testBit_shiftLeft, Nat.testBit_shiftLeft] at h1
      have hd : ¬ (128 ≤ i) := by omega
      simpa [hd] using h1
    · rw [hhigh y1 hy1 i (by omega), hhigh y2 hy2 i (by omega)]

/-- Over the full uint256 argument domain `getPixelKey` collides: the shift
pushes `x = 1` exactly onto bit 128, which `y = 2^128` also sets. -/
theorem getPixelKey_collision : getPixelKey 0 (2 ^ 128) = getPixelKey 1 0 := by
  unfold getPixelKey
  norm_num [Nat.shiftLeft_eq, W256]

/-- Counterexample to the second half of claim C6: `key(0, 2^128)` and
`key(1, 0)` coincide although the argument pairs (both within uint256)
differ. -/
theorem claim_C6_counterexample :
    getPixelKey 0 (2 ^ 128) = getPixelKey 1 0 ∧
      (0 : Nat) < W256 ∧ (2 ^ 128 : Nat) < W256 ∧ (1 : Nat) < W256 ∧ (0 : Nat) < W256 ∧
      ¬ ((0 : Nat) = 1 ∧ (2 ^ 128 : Nat) = 0) := by
  exact ⟨getPixelKey_collision, by norm_num [W256], by norm_num [W256], by norm_num [W256],
    by norm_num [W256], by intro hc; exact absurd hc.1 (by norm_num)⟩

/-- Claim C6 (amended): `getPixelKey` is injective over the valid coordinate
range `0 ≤ x, y < 1024`, but it does NOT remain collision-free over the full
uint256 domain of its arguments: there are in-domain pairs that collide. -/
theorem claim_C6_key_injective :
    (∀ x1 y1 x2 y2, x1 < CANVAS_SIZE → y1 < CANVAS_SIZE → x2 < CANVAS_SIZE →
      y2 < CANVAS_SIZE → getPixelKey x1 y1 = getPixelKey x2 y2 → x1 = x2 ∧ y1 = y2) ∧
    (∃ x1 y1 x2 y2, x1 < W256 ∧ y1 < W256 ∧ x2 < W256 ∧ y2 < W256 ∧
      ¬ (x1 = x2 ∧ y1 = y2) ∧ getPixelKey x1 y1 = getPixelKey x2 y2) := by
  constructor
  · intro x1 y1 x2 y2 hx1 hy1 hx2 hy2 h
    have hle : CANVAS_SIZE ≤ 2 ^ 128 := by norm_num [CANVAS_SIZE]
    exact getPixelKey_inj (lt_of_lt_of_le hx1 hle) (lt_of_lt_of_le hy1 hle)
      (lt_of_lt_of_le hx2 hle) (lt_of_lt_of_le hy2 hle) h
  · exact ⟨0, 2 ^ 128, 1, 0, by norm_num [W256], by norm_num [W256], by norm_num [W256],
      by norm_num [W256], by intro hc; exact absurd hc.1 (by norm_num), getPixelKey_collision⟩

/-- Witness for C6: concrete valid-range instance — keys of `(3,4)` and
`(5,6)` differ, by injectivity. -/
theorem claim_C6_witness :
    getPixelKey 3 4 ≠ getPixelKey 5 6 := by
  intro h
  have h35 := (claim_C6_key_injective.1 3 4 5 6 (by decide) (by decide) (by decide)
    (by decide) h).1
  exact absurd h35 (by decide)

/-- A reverted transaction leaves the applied state unchanged. -/
theorem applyCmd_fail_eq {s : CanvasState} {ctx : Ctx} {c : Cmd}
    (h : (runCmd s ctx c).isOk = false) : applyCmd s ctx c = s := by
  unfold applyCmd
  split
  · next s1 evs1 heq =>
    rw [heq] at h
    exact absurd h (by simp [Except.isOk, Except.toBool])
  · rfl

/-- A transaction aimed at a different coordinate (or failing) leaves the
record at `(x, y)` unchanged; uses key injectivity for successful writes. -/
theorem applyCmd_pixel_preserved {s : CanvasState} {ctx : Ctx} {c : Cmd} {x y : Nat}
    (hx : x < CANVAS_SIZE) (hy : y < CANVAS_SIZE) (hne : cmdCoord c ≠ (x, y)) :
    (applyCmd s ctx c).pixels (getPixelKey x y) = s.pixels (getPixelKey x y) := by
  have hle : CANVAS_SIZE ≤ 2 ^ 128 := by norm_num [CANVAS_SIZE]
  unfold applyCmd
  split
  · next s1 evs1 heq =>
    cases c with
    | place x2 y2 color ref =>
      have hb := (placePixel_ok_iff.mp heq).2.1
      obtain ⟨-, -, -, -, -, hothers, -, -, -, -⟩ := placePixel_ok_proj heq
      apply hothers
      intro hkey
      obtain ⟨hx12, hy12⟩ := getPixelKey_inj (lt_of_lt_of_le hx hle)
        (lt_of_lt_of_le hy hle) (lt_of_lt_of_le hb.1 hle) (lt_of_lt_of_le hb.2 hle) hkey
      exact hne (by simp [cmdCoord, hx12, hy12])
    | placePD x2 y2 ref =>
      have hb := (placePd_ok_iff.mp heq).2.1
      obtain ⟨-, -, -, -, -, hothers, -⟩ := placePd_ok_proj heq
      apply hothers
      intro hkey
      obtain ⟨hx12, hy12⟩ := getPixelKey_inj (lt_of_lt_of_le hx hle)
        (lt_of_lt_of_le hy hle) (lt_of_lt_of_le hb.1 hle) (lt_of_lt_of_le hb.2 hle) hkey
      exact hne (by simp [cmdCoord, hx12, hy12])
  · rfl

/-- Along any trace with no successful placement at `(x, y)`, the stored
record at `(x, y)` never changes. -/
theorem pixels_unchanged_of_noSuccess {x y : Nat} (hx : x < CANVAS_SIZE)
    (hy : y < CANVAS_SIZE) :
    ∀ (cmds : List (Ctx × Cmd)) (s : CanvasState), noSuccessAt s (x, y) cmds = true →
      (applyAll s cmds).pixels (getPixelKey x y) = s.pixels (getPixelKey x y) := by
  intro cmds
  induction cmds with
  | nil => intro s _; rfl
  | cons p rest ih =>
    intro s h
    obtain ⟨ctx, c⟩ := p
    unfold noSuccessAt at h
    rw [Bool.and_eq_true] at h
    obtain ⟨h1, h2⟩ := h
    show (applyAll (applyCmd s ctx c) rest).pixels _ = _
    rw [ih _ h2]
    rcases Bool.or_eq_true _ _ |>.mp h1 with hco | hfail
    · exact applyCmd_pixel_preserved hx hy (of_decide_eq_true hco)
    · rw [applyCmd_fail_eq (by revert hfail; cases (runCmd s ctx c).isOk <;> simp)]

/-- Claim C10: `getPixel` never fails on in-bounds input — a coordinate at
which no placement ever succeeded reads back as the zero record (color 0,
zero address, timestamp 0, empty `dataRef`, unverified) — and it rejects
exactly the coordinates with `x ≥ 1024` or `y ≥ 1024`. -/
theorem claim_C10_getPixel_total :
    (∀ (s : CanvasState) (x y : Nat),
        getPixel s x y = .error .outOfBounds ↔ CANVAS_SIZE ≤ x ∨ CANVAS_SIZE ≤ y) ∧
    (∀ (s : CanvasState) (x y : Nat), x < CANVAS_SIZE → y < CANVAS_SIZE →
        getPixel s x y = .ok (s.pixels (getPixelKey x y))) ∧
    (∀ (price owner x y : Nat) (cmds : List (Ctx × Cmd)), x < CANVAS_SIZE → y < CANVAS_SIZE →
        noSuccessAt (initialState price owner) (x, y) cmds = true →
        getPixel (applyAll (initialState price owner) cmds) x y = .ok zeroPixel) := by
  refine ⟨?_, ?_, ?_⟩
  · intro s x y
    unfold getPixel
    by_cases hb : x < CANVAS_SIZE ∧ y < CANVAS_SIZE
    · rw [if_neg (not_not_intro hb)]
      constructor
      · intro h; exact Except.noConfusion h
      · intro h; omega
    · rw [if_pos hb]
      constructor
      · intro _; omega
      · intro _; rfl
  · intro s x y hx hy
    unfold getPixel
    rw [if_neg (not_not_intro ⟨hx, hy⟩)]
  · intro price owner x y cmds hx hy hns
    unfold getPixel
    rw [if_neg (not_not_intro ⟨hx, hy⟩), pixels_unchanged_of_noSuccess hx hy cmds _ hns]
    rfl

/-- Witness for C10: a trace with a successful placement at `(1,1)` and a
failed (unpaid) attempt at `(0,0)` still reads `(0,0)` as the zero record;
`(1024, 5)` is rejected; a fresh in-bounds read returns the stored record. -/
theorem claim_C10_witness :
    getPixel (applyAll (initialState 1 7)
        [(⟨5, 1, 100, none, true⟩, .place 1 1 7 ""), (⟨5, 0, 200, none, true⟩, .place 0 0 9 "")])
        0 0 = .ok zeroPixel ∧
    getPixel (initialState 1 7) 1024 5 = .error .outOfBounds ∧
    getPixel (initialState 1 7) 5 5 = .ok zeroPixel := by
  refine ⟨claim_C10_getPixel_total.2.2 1 7 0 0 _ (by decide) (by decide) (by decide), ?_, ?_⟩
  · exact (claim_C10_getPixel_total.1 (initialState 1 7) 1024 5).mpr (Or.inl (by decide))
  · exact claim_C10_getPixel_total.2.1 (initialState 1 7) 5 5 (by decide) (by decide)

theorem except_bind_ok {α β ε : Type} (a : α) (f : α → Except ε β) :
    (Except.ok a >>= f) = f a := rfl

theorem except_bind_err {α β ε : Type} (e : ε) (f : α → Except ε β) :
    ((Except.error e : Except ε α) >>= f) = Except.error e := rfl

theorem matchAt_singleton (data : List Nat) (i : Nat) :
    matchAt data [35] i = (data.getD i 0 == 35) := by
  simp [matchAt, List.range_succ]

/-- The scan loop returns the first hash position when it is in its window. -/
theorem findSubstringGo_hash_found (data : List Nat) :
    ∀ (n start i : Nat), start + n = data.length → start ≤ i → i < data.length →
      data.getD i 0 = 35 → (∀ j, start ≤ j → j < i → data.getD j 0 ≠ 35) →
      findSubstringGo data [35] n start = i := by
  intro n
  induction n with
  | zero => intro start i hlen hsi hi _ _; omega
  | succ n ih =>
    intro start i hlen hsi hi h35 hfirst
    unfold findSubstringGo
    rw [matchAt_singleton]
    by_cases hs : start = i
    · rw [if_pos (by rw [hs, h35]; rfl)]
      exact hs
    · have hslt : start < i := by omega
      rw [if_neg (by simpa using hfirst start (le_refl start) hslt)]
      exact ih (start + 1) i (by omega) (by omega) hi h35
        (fun j h1 h2 => hfirst j (by omega) h2)

/-- The scan loop reports not-found when no position of its window holds a
hash. -/
theorem findSubstringGo_hash_none (data : List Nat) :
    ∀ (n start : Nat), (∀ j, start ≤ j → j < start + n → data.getD j 0 ≠ 35) →
      findSubstringGo data [35] n start = UINT256_MAX := by
  intro n
  induction n with
  | zero => intro start _; rfl
  | succ n ih =>
    intro start hnone
    unfold findSubstringGo
    rw [matchAt_singleton, if_neg (by simpa using hnone start (le_refl start) (by omega))]
    exact ih (start + 1) (fun j h1 h2 => hnone j (by omega) (by omega))

theorem findSubstring_hash_found {data : List Nat} {i : Nat} (h : isFirstHashAt data i) :
    findSubstring data [35] = i := by
  obtain ⟨hi, h35, hfirst⟩ := h
  unfold findSubstring
  rw [if_neg (show ¬ (([35] : List Nat).length > data.length) from by
    show ¬ (1 > data.length)
    omega)]
  have hn : data.length - ([35] : List Nat).length + 1 = data.length := by
    show data.length - 1 + 1 = data.length
    omega
  rw [hn]
  exact findSubstringGo_hash_found data data.length 0 i (by omega) (by omega) hi h35
    (fun j _ h2 => hfirst j h2)

theorem findSubstring_hash_none {data : List Nat}
    (h : ∀ j, j < data.length → data.getD j 0 ≠ 35) :
    findSubstring data [35] = UINT256_MAX := by
  unfold findSubstring
  by_cases hl : ([35] : List Nat).length > data.length
  · rw [if_pos hl]
  · rw [if_neg hl]
    have hl2 : ¬ (1 > data.length) := hl
    have hn : data.length - ([35] : List Nat).length + 1 = data.length := by
      show data.length - 1 + 1 = data.length
      omega
    rw [hn]
    exact findSubstringGo_hash_none data data.length 0 (fun j _ h2 => h j (by omega))

theorem hexCharToByte_eq (c : Nat) :
    hexCharToByte c = if isHexDigit c then .ok (hexVal c) else .error .invalidHexChar := by
  unfold hexCharToByte isHexDigit hexVal
  by_cases h1 : 0x30 ≤ c ∧ c ≤ 0x39
  · simp [h1]
  · by_cases h2 : 0x41 ≤ c ∧ c ≤ 0x46
    · simp [h1, h2]
    · by_cases h3 : 0x61 ≤ c ∧ c ≤ 0x66
      · simp [h1, h2, h3]
      · simp [h1, h2, h3]

/-- Either all six characters are hex digits, or the conversion reverts with
the invalid-hex-character error (whichever character fails first). -/
theorem hexStringToBytes3_all_or_err (c0 c1 c2 c3 c4 c5 : Nat) :
    (isHexDigit c0 = true ∧ isHexDigit c1 = true ∧ isHexDigit c2 = true ∧
      isHexDigit c3 = true ∧ isHexDigit c4 = true ∧ isHexDigit c5 = true) ∨
    hexStringToBytes3 [c0, c1, c2, c3, c4, c5] = .error .invalidHexChar := by
  cases h0 : isHexDigit c0
  · right
    simp [hexStringToBytes3, hexCharToByte_eq, h0, except_bind_ok, except_bind_err]
  · cases h1 : isHexDigit c1
    · right
      simp [hexStringToBytes3, hexCharToByte_eq, h0, h1, except_bind_ok, except_bind_err]
    · cases h2 : isHexDigit c2
      · right
        simp [hexStringToBytes3, hexCharToByte_eq, h0, h1, h2, except_bind_ok, except_bind_err]
      · cases h3 : isHexDigit c3
        · right
          simp [hexStringToBytes3, hexCharToByte_eq, h0, h1, h2, h3,
            except_bind_ok, except_bind_err]
        · cases h4 : isHexDigit c4
          · right
            simp [hexStringToBytes3, hexCharToByte_eq, h0, h1, h2, h3, h4,
              except_bind_ok, except_bind_err]
          · cases h5 : isHexDigit c5
            · right
              simp [hexStringToBytes3, hexCharToByte_eq, h0, h1, h2, h3, h4, h5,
                except_bind_ok, except_bind_err]
            · exact Or.inl ⟨rfl, rfl, rfl, rfl, rfl, rfl⟩

theorem hexStringToBytes3_ok {c0 c1 c2 c3 c4 c5 : Nat}
    (h0 : isHexDigit c0 = true) (h1 : isHexDigit c1 = true) (h2 : isHexDigit c2 = true)
    (h3 : isHexDigit c3 = true) (h4 : isHexDigit c4 = true) (h5 : isHexDigit c5 = true) :
    hexStringToBytes3 [c0, c1, c2, c3, c4, c5] =
      .ok (((((hexVal c0 <<< 4) ||| hexVal c1) <<< 16)) |||
        ((((hexVal c2 <<< 4) ||| hexVal c3) <<< 8)) |||
        ((hexVal c4 <<< 4) ||| hexVal c5)) := by
  simp [hexStringToBytes3, hexCharToByte_eq, h0, h1, h2, h3, h4, h5,
    except_bind_ok, except_bind_err]

/-- Claim C4: verified-data color extraction.  A payload with no `#` is
rejected; a payload whose first `#` has fewer than six characters after it
is rejected; otherwise the result is exactly the hex conversion of the six
characters after the first `#` — rejecting when any of them is not a hex
digit and producing the assembled 3-byte value when all are; and every
successful verified placement stores that extracted color with the
verified flag set. -/
theorem claim_C4_color_extraction :
    (∀ data : List Nat, (∀ j, j < data.length → data.getD j 0 ≠ 35) →
        extractColorFromData data = .error .invalidColorFormat) ∧
    (∀ (data : List Nat) (i : Nat), data.length < UINT256_MAX → isFirstHashAt data i →
        data.length < i + 7 → extractColorFromData data = .error .invalidColorLength) ∧
    (∀ (data : List Nat) (i : Nat), data.length < UINT256_MAX → isFirstHashAt data i →
        i + 7 ≤ data.length →
        extractColorFromData data =
          hexStringToBytes3 [data.getD (i + 1) 0, data.getD (i + 2) 0, data.getD (i + 3) 0,
            data.getD (i + 4) 0, data.getD (i + 5) 0, data.getD (i + 6) 0]) ∧
    (∀ (data : List Nat) (i : Nat), data.length < UINT256_MAX → isFirstHashAt data i →
        i + 7 ≤ data.length →
        ¬ (isHexDigit (data.getD (i + 1) 0) = true ∧ isHexDigit (data.getD (i + 2) 0) = true ∧
          isHexDigit (data.getD (i + 3) 0) = true ∧ isHexDigit (data.getD (i + 4) 0) = true ∧
          isHexDigit (data.getD (i + 5) 0) = true ∧ isHexDigit (data.getD (i + 6) 0) = true) →
        extractColorFromData data = .error .invalidHexChar) ∧
    (∀ c0 c1 c2 c3 c4 c5 : Nat, isHexDigit c0 = true → isHexDigit c1 = true →
        isHexDigit c2 = true → isHexDigit c3 = true → isHexDigit c4 = true →
        isHexDigit c5 = true →
        hexStringToBytes3 [c0, c1, c2, c3, c4, c5] =
          .ok (((((hexVal c0 <<< 4) ||| hexVal c1) <<< 16)) |||
            ((((hexVal c2 <<< 4) ||| hexVal c3) <<< 8)) |||
            ((hexVal c4 <<< 4) ||| hexVal c5))) ∧
    (∀ (s : CanvasState) (ctx : Ctx) (x y : Nat) (ref : String) (s' : CanvasState)
        (evs : List Ev), placePixelWithProgrammableData s ctx x y ref = .ok (s', evs) →
        ∃ data color, ctx.pdData = some data ∧ extractColorFromData data = .ok color ∧
          s'.pixels (getPixelKey x y) = ⟨color, ctx.sender, ctx.timestamp, ref, true⟩) := by
  have hchain : ∀ (data : List Nat) (i : Nat), data.length < UINT256_MAX →
      isFirstHashAt data i → i + 7 ≤ data.length →
      extractColorFromData data =
        hexStringToBytes3 [data.getD (i + 1) 0, data.getD (i + 2) 0, data.getD (i + 3) 0,
          data.getD (i + 4) 0, data.getD (i + 5) 0, data.getD (i + 6) 0] := by
    intro data i hbig hfirst hle
    unfold extractColorFromData
    rw [findSubstring_hash_found hfirst,
      if_neg (show ¬ i = UINT256_MAX by have := hfirst.1; omega),
      if_neg (not_not_intro hle)]
    rfl
  refine ⟨?_, ?_, hchain, ?_, fun c0 c1 c2 c3 c4 c5 h0 h1 h2 h3 h4 h5 =>
    hexStringToBytes3_ok h0 h1 h2 h3 h4 h5, ?_⟩
  · intro data hnone
    unfold extractColorFromData
    rw [findSubstring_hash_none hnone, if_pos rfl]
  · intro data i hbig hfirst hlt
    unfold extractColorFromData
    rw [findSubstring_hash_found hfirst,
      if_neg (show ¬ i = UINT256_MAX by have := hfirst.1; omega),
      if_pos (by omega)]
  · intro data i hbig hfirst hle hbad
    rw [hchain data i hbig hfirst hle]
    rcases hexStringToBytes3_all_or_err (data.getD (i + 1) 0) (data.getD (i + 2) 0)
      (data.getD (i + 3) 0) (data.getD (i + 4) 0) (data.getD (i + 5) 0)
      (data.getD (i + 6) 0) with hall | herr
    · exact absurd hall hbad
    · exact herr
  · intro s ctx x y ref s' evs h
    exact ((placePd_ok_proj h).1)

/-- Witness for C4: the spec scenario — payload `{"color":"#aabbcc"}`
(19 bytes) extracts color `0xaabbcc`, and a verified placement with that
payload stores `0xaabbcc` with the verified flag. -/
theorem claim_C4_witness :
    extractColorFromData
        [123, 34, 99, 111, 108, 111, 114, 34, 58, 34, 35, 97, 97, 98, 98, 99, 99, 34, 125] =
      .ok 0xaabbcc ∧
    ∃ s' evs,
      placePixelWithProgrammableData (initialState 1 7)
          ⟨5, 1, 100,
            some [123, 34, 99, 111, 108, 111, 114, 34, 58, 34, 35, 97, 97, 98, 98, 99, 99, 34, 125],
            true⟩ 2 2 "tx" = .ok (s', evs) ∧
      s'.pixels (getPixelKey 2 2) = ⟨0xaabbcc, 5, 100, "tx", true⟩ := by
  have hextract : extractColorFromData
      [123, 34, 99, 111, 108, 111, 114, 34, 58, 34, 35, 97, 97, 98, 98, 99, 99, 34, 125] =
      .ok 0xaabbcc := by
    rw [claim_C4_color_extraction.2.2.1
      [123, 34, 99, 111, 108, 111, 114, 34, 58, 34, 35, 97, 97, 98, 98, 99, 99, 34, 125] 10
      (by norm_num [UINT256_MAX]) (by decide) (by decide)]
    rfl
  refine ⟨hextract, ?_⟩
  cases hout : placePixelWithProgrammableData (initialState 1 7)
      ⟨5, 1, 100,
        some [123, 34, 99, 111, 108, 111, 114, 34, 58, 34, 35, 97, 97, 98, 98, 99, 99, 34, 125],
        true⟩ 2 2 "tx" with
  | error e =>
    have h1 : (placePixelWithProgrammableData (initialState 1 7)
        ⟨5, 1, 100,
          some [123, 34, 99, 111, 108, 111, 114, 34, 58, 34, 35, 97, 97, 98, 98, 99, 99, 34, 125],
          true⟩ 2 2 "tx").isOk = true := by decide
    rw [hout] at h1
    exact absurd h1 (by simp [Except.isOk, Except.toBool])
  | ok out =>
    obtain ⟨s1, evs1⟩ := out
    obtain ⟨data, color, hdat, hext, hpix⟩ :=
      claim_C4_color_extraction.2.2.2.2.2 _ _ _ _ _ _ _ hout
    injection hdat with hdat
    rw [← hdat] at hext
    rw [hextract] at hext
    injection hext with hext
    rw [← hext] at hpix
    exact ⟨s1, evs1, rfl, hpix⟩

end PlaceCanvas

namespace CanvasSync

/-- Adjacent block ranges concatenate to the combined range. -/
theorem query_split (chain : Nat → List PixelEvent) {A B C : Nat}
    (h1 : A ≤ B + 1) (h2 : B ≤ C) :
    queryPixelPlacedEvents chain A B ++ queryPixelPlacedEvents chain (B + 1) C =
      queryPixelPlacedEvents chain A C := by
  unfold queryPixelPlacedEvents
  rw [← List.flatten_append, ← List.map_append]
  have e1 : A + 1 * (B + 1 - A) = B + 1 := by omega
  have e2 : C + 1 - (B + 1) + (B + 1 - A) = C + 1 - A := by omega
  have happ := List.range'_append A (B + 1 - A) (C + 1 - (B + 1)) 1
  rw [e1, e2] at happ
  rw [happ]

/-- Chunked fetching is transparent: for any positive chunk size the
concatenated chunks equal the one-shot range query. -/
theorem fetchChunked_eq_query (chain : Nat → List PixelEvent) (k : Nat) (hk : 0 < k) :
    ∀ (n fromB toB : Nat), toB + 1 - fromB ≤ n →
      fetchPixelEventsChunked chain fromB toB k = queryPixelPlacedEvents chain fromB toB := by
  intro n
  induction n with
  | zero =>
    intro fromB toB hn
    unfold fetchPixelEventsChunked
    rw [if_neg (by omega), dif_pos (by omega)]
    unfold queryPixelPlacedEvents
    rw [show toB + 1 - fromB = 0 from by omega]
    simp
  | succ n ih =>
    intro fromB toB hn
    unfold fetchPixelEventsChunked
    rw [if_neg (by omega)]
    by_cases hfb : toB < fromB
    · rw [dif_pos hfb]
      unfold queryPixelPlacedEvents
      rw [show toB + 1 - fromB = 0 from by omega]
      simp
    · rw [dif_neg hfb]
      have hE1 : fromB ≤ min (fromB + k - 1) toB := by
        refine le_min (by omega) (by omega)
      have hE2 : min (fromB + k - 1) toB ≤ toB := min_le_right _ _
      rw [ih (min (fromB + k - 1) toB + 1) toB (by omega)]
      exact query_split chain (by omega) hE2

/-- Claim C7: chunking- and fetch-order-insensitivity of event-replay
merging.  Fetching `[A,C]` chunked (any positive chunk size, in particular
one chunk) merges to the same grid as the one-shot query, and the query of
`[A,C]` is exactly the concatenation of the queries of `[A,B]` and
`[B+1,C]`; moreover for two events on one coordinate the merged entry is
the higher-block event regardless of the order in which they were fetched. -/
theorem claim_C7_chunked_merge :
    (∀ (chain : Nat → List PixelEvent) (A B C k : Nat), 0 < k → A ≤ B + 1 → B ≤ C →
        latestByCoord (fetchPixelEventsChunked chain A C k) =
          latestByCoord (queryPixelPlacedEvents chain A C) ∧
        queryPixelPlacedEvents chain A B ++ queryPixelPlacedEvents chain (B + 1) C =
          queryPixelPlacedEvents chain A C) ∧
    (∀ e1 e2 : PixelEvent, e1.x = e2.x → e1.y = e2.y →
        e1.blockNumber < e2.blockNumber →
        latestByCoord [e1, e2] (e2.x, e2.y) = some e2 ∧
        latestByCoord [e2, e1] (e2.x, e2.y) = some e2) := by
  constructor
  · intro chain A B C k hk h1 h2
    exact ⟨congrArg latestByCoord
        (fetchChunked_eq_query chain k hk (C + 1 - A) A C (le_refl _)),
      query_split chain h1 h2⟩
  · intro e1 e2 hx hy hbn
    have hxy : (e1.x, e1.y) = (e2.x, e2.y) := by rw [hx, hy]
    constructor
    · simp [latestByCoord, hxy, Nat.le_of_lt hbn]
    · simp [latestByCoord, ← hxy, Nat.not_le.mpr hbn]

/-- Witness for C7: the spec scenario — a chain with one event at block 10
and one at block 15 on the same coordinate merges to the block-15 color in
both fetch orders, and chunked fetch of `[0,20]` equals the one-shot query. -/
theorem claim_C7_witness :
    latestByCoord [⟨4, 5, 111, 1, 0, 10⟩, ⟨4, 5, 222, 2, 0, 15⟩] (4, 5) =
      some ⟨4, 5, 222, 2, 0, 15⟩ ∧
    latestByCoord [⟨4, 5, 222, 2, 0, 15⟩, ⟨4, 5, 111, 1, 0, 10⟩] (4, 5) =
      some ⟨4, 5, 222, 2, 0, 15⟩ ∧
    (∀ chain : Nat → List PixelEvent,
      latestByCoord (fetchPixelEventsChunked chain 0 20 7) =
        latestByCoord (queryPixelPlacedEvents chain 0 20)) := by
  obtain ⟨ho1, ho2⟩ := claim_C7_chunked_merge.2 ⟨4, 5, 111, 1, 0, 10⟩ ⟨4, 5, 222, 2, 0, 15⟩
    rfl rfl (by decide)
  exact ⟨ho1, ho2, fun chain =>
    (claim_C7_chunked_merge.1 chain 0 10 20 7 (by decide) (by decide) (by decide)).1⟩

end CanvasSync

namespace Overlay

/-- Claim C8: right after `addOptimisticPixel(x, y, c, txId)` the merged
canvas shows the optimistic entry at `(x, y)` (color `c`), shadowing any
confirmed pixel there; after `confirmOptimisticPixel(txId)` the optimistic
entry is gone and the merge falls back to the confirmed map; after
`rollbackOptimisticPixel(x, y, reason)` the entry is gone as well and the
rollback notification carrying `reason` is surfaced. -/
theorem claim_C8_optimistic_overlay (s : OverlayState) (confirmed : List FrontPixel)
    (now x y : Nat) (c txId reason : String) :
    mergePixelsWithOptimistic confirmed (addOptimisticPixel now x y c (some txId) s) (x, y) =
      some ⟨x, y, c, none, now, true, some txId⟩ ∧
    mergePixelsWithOptimistic confirmed
        (confirmOptimisticPixel txId (addOptimisticPixel now x y c (some txId) s)).1 (x, y) =
      confirmedMap confirmed (x, y) ∧
    mergePixelsWithOptimistic confirmed
        (rollbackOptimisticPixel x y (some reason)
          (addOptimisticPixel now x y c (some txId) s)).1 (x, y) =
      confirmedMap confirmed (x, y) ∧
    (rollbackOptimisticPixel x y (some reason)
        (addOptimisticPixel now x y c (some txId) s)).2 =
      some ("Pixel (" ++ toString x ++ ", " ++ toString y ++ ") placement failed: " ++ reason) := by
  refine ⟨?_, ?_, ?_, ?_⟩
  · simp [mergePixelsWithOptimistic, addOptimisticPixel, toFrontPixel]
  · simp [mergePixelsWithOptimistic, addOptimisticPixel, confirmOptimisticPixel,
      removeOptimisticPixel]
  · simp [mergePixelsWithOptimistic, addOptimisticPixel, rollbackOptimisticPixel]
  · simp [rollbackOptimisticPixel, addOptimisticPixel, rollbackMessage]

end Overlay
